import Mathlib

/-!
Verification of the transactional ledger store of `bun-bench-tasks`
(tasks 007 `sqlite-transaction`, 009 `sqlite-bigint`, and the SQL
parameterized-query task).  The repository ships only the test files for
these tasks (`test/transfer.test.ts`, `test/analytics.test.ts`, and the
parameterized-query test); the implementations `src/transfer.ts`,
`src/analytics.ts` and `src/db.ts` they import are not in the tree, so
every operation below is modelled from the specification's own words
(spec sections 3, 4.1, 4.2, 4.3, 6 and 7) and the call shapes visible in
the tests.
-/

set_option maxHeartbeats 1000000

namespace BunBench

/-! ### Numeric codec (spec section 4.1) -/

/-- Smallest signed 64-bit integer, `-2^63`. -/
def INT64_MIN : Int := -(2 ^ 63)

/-- Largest signed 64-bit integer, `2^63 - 1`. -/
def INT64_MAX : Int := 2 ^ 63 - 1

/-- `x` lies in the signed 64-bit range. -/
def int64InRange (x : Int) : Prop := INT64_MIN ≤ x ∧ x ≤ INT64_MAX

instance (x : Int) : Decidable (int64InRange x) := by
  unfold int64InRange; infer_instance

/-- Error kinds of the numeric codec (spec section 7): a value outside the
representable signed 64-bit range is rejected, never wrapped. -/
inductive CodecError where
  | outOfRange
  deriving Repr, DecidableEq

/-- Modelled from the spec: `encode(value: 64-bit integer) -> storage-native
representation`.  With exact-integer storage affinity the storage-native
representation of an in-range integer is the integer itself; an
out-of-range value fails with `OutOfRange` rather than silently wrapping
or truncating. -/
def encode (x : Int) : Except CodecError Int :=
  if int64InRange x then .ok x else .error .outOfRange

/-- Modelled from the spec: `decode(raw: storage-native representation) ->
64-bit integer`; exact-integer affinity preserves the full-width value
verbatim. -/
def decode (raw : Int) : Int := raw

/-- Values as delivered to the caller by the storage driver: either an
arbitrary-precision integer (`bigint`, exact-integer retrieval mode) or
the engine's default floating-point-backed numeric decoding. -/
inductive DbValue where
  | bigint (i : Int)
  | number (i : Int)
  deriving Repr, DecidableEq

/-- Round an integer to the nearest IEEE-754 double (53-bit mantissa,
ties to even): the loss the engine's default numeric affinity inflicts on
magnitudes beyond `2^53 - 1`. -/
def roundToDouble (x : Int) : Int :=
  let n := x.natAbs
  if n < 2 ^ 53 then x
  else
    let sh := Nat.log2 n - 52
    let q := n / 2 ^ sh
    let r := n % 2 ^ sh
    let half := 2 ^ (sh - 1)
    let q' := if r > half ∨ (r = half ∧ q % 2 = 1) then q + 1 else q
    if x < 0 then -(q' * 2 ^ sh : Nat) else (q' * 2 ^ sh : Nat)

/-- Modelled from the spec: column decoding as seen by the caller.  In
exact-integer retrieval mode (`safeIntegers: true`) the raw 64-bit value
is delivered verbatim as a `bigint`; in the engine's default mode it is
rounded through a double. -/
def decodeColumn (safeIntegers : Bool) (raw : Int) : DbValue :=
  if safeIntegers then .bigint raw else .number (roundToDouble raw)

/-- The analytics layer requests exact-integer retrieval mode (spec
section 6: "the calling layer must request exact-integer retrieval mode
rather than default numeric decoding"). -/
def analyticsSafeIntegers : Bool := true

/-! ### Analytics store (task 009, spec sections 3 and 6)

Tables `events(id, event_type, timestamp_ns, user_id, session_id)`,
`counters(name, value)`, and a snowflake table, all with exact-integer
storage affinity. -/

/-- An `events` row. -/
structure EventRecord where
  id : Nat
  event_type : String
  timestamp_ns : Int
  user_id : Option Int
  session_id : Option Int
  deriving Repr, DecidableEq

/-- The analytics store: events, named counters, snowflake rows keyed by
rowid, and the next fresh event / snowflake rowids. -/
structure AnalyticsDb where
  events : List EventRecord
  counters : List (String × Int)
  snowflakes : List (Nat × Int)
  nextEventId : Nat
  nextSnowflakeId : Nat
  deriving Repr, DecidableEq

/-- The empty analytics store (`resetAnalytics`). -/
def AnalyticsDb.empty : AnalyticsDb :=
  { events := [], counters := [], snowflakes := [], nextEventId := 1, nextSnowflakeId := 1 }

/-- Encode an optional 64-bit column value. -/
def encodeOpt : Option Int → Except CodecError (Option Int)
  | none => .ok none
  | some x => (encode x).map some

/-- Modelled from the spec: `logEvent` stores an event with a 64-bit
nanosecond timestamp and optional 64-bit user and session ids, every
64-bit field going through the codec; returns the new store and the
fresh event id. -/
def logEvent (db : AnalyticsDb) (ty : String) (ts : Int)
    (uid sid : Option Int) : Except CodecError (AnalyticsDb × Nat) :=
  match encode ts with
  | .error e => .error e
  | .ok ts' =>
    match encodeOpt uid with
    | .error e => .error e
    | .ok uid' =>
      match encodeOpt sid with
      | .error e => .error e
      | .ok sid' =>
        .ok ({ db with
                events := ⟨db.nextEventId, ty, decode ts',
                           uid'.map decode, sid'.map decode⟩ :: db.events,
                nextEventId := db.nextEventId + 1 }, db.nextEventId)

/-- Look up an event row by id. -/
def findEvent : List EventRecord → Nat → Option EventRecord
  | [], _ => none
  | e :: rest, id => if e.id = id then some e else findEvent rest id

/-- Modelled from the spec: `getEvent(id)` retrieves the stored event,
64-bit fields decoded exactly. -/
def getEvent (db : AnalyticsDb) (id : Nat) : Option EventRecord :=
  findEvent db.events id

/-- Modelled from the spec: `getEventsByTimeRange(lo, hi)` returns the
events whose timestamp lies in `[lo, hi]`, the comparison performed in
the native 64-bit integer domain. -/
def getEventsByTimeRange (db : AnalyticsDb) (lo hi : Int) : List EventRecord :=
  db.events.filter (fun e => decide (lo ≤ e.timestamp_ns ∧ e.timestamp_ns ≤ hi))

/-- Association-list lookup for counters. -/
def lookupVal : List (String × Int) → String → Option Int
  | [], _ => none
  | (m, w) :: rest, n => if m = n then some w else lookupVal rest n

/-- Association-list update (insert-or-replace) for counters. -/
def setVal : List (String × Int) → String → Int → List (String × Int)
  | [], n, v => [(n, v)]
  | (m, w) :: rest, n, v =>
    if m = n then (n, v) :: rest else (m, w) :: setVal rest n v

/-- Modelled from the spec: `incrementCounter(name, amount)` adds `amount`
to the counter's current value (0 when absent) in 64-bit integer
arithmetic, the result going through the codec before being stored. -/
def incrementCounter (db : AnalyticsDb) (name : String) (amount : Int) :
    Except CodecError AnalyticsDb :=
  match encode ((lookupVal db.counters name).getD 0 + amount) with
  | .error e => .error e
  | .ok v => .ok { db with counters := setVal db.counters name (decode v) }

/-- Modelled from the spec: `getCounter(name)` reads the counter's exact
64-bit value. -/
def getCounter (db : AnalyticsDb) (name : String) : Option Int :=
  lookupVal db.counters name

/-- Modelled from the spec: `storeSnowflakeId(x)` stores a 64-bit
snowflake identifier through the codec, returning the fresh rowid. -/
def storeSnowflakeId (db : AnalyticsDb) (x : Int) :
    Except CodecError (AnalyticsDb × Nat) :=
  match encode x with
  | .error e => .error e
  | .ok v =>
    .ok ({ db with
            snowflakes := (db.nextSnowflakeId, decode v) :: db.snowflakes,
            nextSnowflakeId := db.nextSnowflakeId + 1 }, db.nextSnowflakeId)

/-- Row lookup in the snowflake table by rowid. -/
def findSnowRow : List (Nat × Int) → Nat → Option Int
  | [], _ => none
  | (k, v) :: rest, id => if k = id then some v else findSnowRow rest id

/-- Modelled from the spec: `getSnowflakeId(rowid)` retrieves the stored
identifier bit pattern exactly. -/
def getSnowflakeId (db : AnalyticsDb) (rowid : Nat) : Option Int :=
  findSnowRow db.snowflakes rowid

/-- Row lookup in the snowflake table by the stored 64-bit value. -/
def findSnowByVal : List (Nat × Int) → Int → Option (Nat × Int)
  | [], _ => none
  | (k, v) :: rest, x => if v = x then some (k, v) else findSnowByVal rest x

/-- Modelled from the spec: `findBySnowflakeId(x)` looks a record up by
its original 64-bit identifier, the comparison in the integer domain. -/
def findBySnowflakeId (db : AnalyticsDb) (x : Int) : Option (Nat × Int) :=
  findSnowByVal db.snowflakes x

/-- Value of `getCounter` as delivered to the caller by the driver. -/
def getCounterValue (db : AnalyticsDb) (name : String) : Option DbValue :=
  (getCounter db name).map (decodeColumn analyticsSafeIntegers)

/-- Value of `getSnowflakeId` as delivered to the caller by the driver. -/
def getSnowflakeValue (db : AnalyticsDb) (rowid : Nat) : Option DbValue :=
  (getSnowflakeId db rowid).map (decodeColumn analyticsSafeIntegers)

/-- The `id` column of `findBySnowflakeId` as delivered to the caller. -/
def findBySnowflakeIdValue (db : AnalyticsDb) (x : Int) : Option DbValue :=
  (findBySnowflakeId db x).map (fun r => decodeColumn analyticsSafeIntegers (Int.ofNat r.1))

/-- The integer fields of `getEvent` as delivered to the caller. -/
def getEventValues (db : AnalyticsDb) (id : Nat) :
    Option (DbValue × Option DbValue × Option DbValue) :=
  (getEvent db id).map (fun e =>
    (decodeColumn analyticsSafeIntegers e.timestamp_ns,
     e.user_id.map (decodeColumn analyticsSafeIntegers),
     e.session_id.map (decodeColumn analyticsSafeIntegers)))

/-! ### Transaction manager and ledger (task 007, spec sections 3, 4.3, 7) -/

/-- An `accounts` row: opaque id, display name, balance in minor units. -/
structure Account where
  id : Nat
  name : String
  balance : Int
  deriving Repr, DecidableEq

/-- A `transaction_log` row: source, destination, amount, timestamp. -/
structure LogEntry where
  from_id : Nat
  to_id : Nat
  amount : Int
  ts : Nat
  deriving Repr, DecidableEq

/-- The ledger store: accounts, transaction log, the next fresh account
id, whether the unique index on `accounts.name` is present, and a clock
supplying log timestamps. -/
structure Ledger where
  accounts : List Account
  txLog : List LogEntry
  nextId : Nat
  uniqueNames : Bool
  clock : Nat
  deriving Repr, DecidableEq

/-- The empty ledger (`resetDatabase`). -/
def Ledger.empty : Ledger :=
  { accounts := [], txLog := [], nextId := 1, uniqueNames := false, clock := 0 }

/-- Typed errors of the transaction manager (spec section 7). -/
inductive TxError where
  | nonPositiveAmount
  | missingDestination
  | missingSource
  | insufficientFunds
  | negativeInitialBalance
  | uniquenessViolation
  | dependentStepFailure
  deriving Repr, DecidableEq

/-- Account lookup by id. -/
def findAccount : List Account → Nat → Option Account
  | [], _ => none
  | a :: rest, id => if a.id = id then some a else findAccount rest id

/-- Whether an account with this id exists. -/
def accountExists (l : Ledger) (id : Nat) : Bool :=
  (findAccount l.accounts id).isSome

/-- `getBalance(id)`: the account's balance, when it exists. -/
def getBalance (l : Ledger) (id : Nat) : Option Int :=
  (findAccount l.accounts id).map (·.balance)

/-- Replace the balance of the account with the given id. -/
def setBalanceRows : List Account → Nat → Int → List Account
  | [], _, _ => []
  | a :: rest, id, b =>
    if a.id = id then { a with balance := b } :: rest
    else a :: setBalanceRows rest id b

/-- Number of rows in `accounts`. -/
def accountCount (l : Ledger) : Nat := l.accounts.length

/-- `createAccount(name, balance)`: inserts a row and returns its id. -/
def createAccount (l : Ledger) (name : String) (balance : Int) : Ledger × Nat :=
  ({ l with
      accounts := l.accounts ++ [⟨l.nextId, name, balance⟩],
      nextId := l.nextId + 1 }, l.nextId)

/-- Debit inside an active scope.  The balance ≥ 0 rule is a durable
constraint: the updated row is checked by the engine, and a violation
surfaces as `insufficientFunds` (spec: "checked by a durable constraint,
not just a pre-check"). -/
def debit (l : Ledger) (id : Nat) (amount : Int) : Except TxError Ledger :=
  match findAccount l.accounts id with
  | none => .error .missingSource
  | some a =>
    if a.balance - amount < 0 then .error .insufficientFunds
    else .ok { l with accounts := setBalanceRows l.accounts id (a.balance - amount) }

/-- Credit inside an active scope (the destination is validated before
this step runs, so a missing row is unreachable on the transfer path). -/
def credit (l : Ledger) (id : Nat) (amount : Int) : Ledger :=
  match findAccount l.accounts id with
  | none => l
  | some a => { l with accounts := setBalanceRows l.accounts id (a.balance + amount) }

/-- Append one transaction-log entry. -/
def appendLog (l : Ledger) (f t : Nat) (amount : Int) : Ledger :=
  { l with txLog := l.txLog ++ [⟨f, t, amount, l.clock⟩] }

/-- Modelled from the spec: `transfer(from, to, amount)` validates
`amount > 0` and that `to` exists before issuing any mutating statement;
a self-transfer is a no-op that still validates; otherwise it debits
`from` (under the durable balance ≥ 0 constraint), credits `to`, and
appends one log entry, all in one atomic scope. -/
def transfer (l : Ledger) (fromId toId : Nat) (amount : Int) :
    Except TxError Ledger :=
  if amount ≤ 0 then .error .nonPositiveAmount
  else if ¬ accountExists l toId then .error .missingDestination
  else if fromId = toId then .ok l
  else
    match debit l fromId amount with
    | .error e => .error e
    | .ok l1 => .ok (appendLog (credit l1 toId amount) fromId toId amount)

/-- Modelled from the spec: the transactional scope.  The operation's
effects are tentative while the scope is active; on success they commit,
on any error the whole scope rolls back and the caller observes the
pre-call state together with the typed error. -/
def runTx (act : Ledger → Except TxError Ledger) (l : Ledger) :
    Ledger × Option TxError :=
  match act l with
  | .ok l' => (l', none)
  | .error e => (l, some e)

/-- A `bulkCreateAccounts` input entry. -/
structure NewAccount where
  name : String
  balance : Int
  deriving Repr, DecidableEq

/-- Insert one account inside an active bulk scope; the unique index on
`name`, when present, is a durable constraint checked at insert. -/
def insertAccount (l : Ledger) (a : NewAccount) : Except TxError Ledger :=
  if l.uniqueNames ∧ l.accounts.any (fun b => b.name = a.name) then
    .error .uniquenessViolation
  else
    .ok { l with
           accounts := l.accounts ++ [⟨l.nextId, a.name, a.balance⟩],
           nextId := l.nextId + 1 }

/-- Insert a batch of accounts in order inside one active scope,
stopping at the first durable-constraint violation. -/
def insertAll : Ledger → List NewAccount → Except TxError Ledger
  | s, [] => .ok s
  | s, a :: rest =>
    match insertAccount s a with
    | .error e => .error e
    | .ok s1 => insertAll s1 rest

/-- Modelled from the spec: `bulkCreateAccounts(list)` validates every
entry (balance ≥ 0) before any durable mutation is issued, then inserts
the batch in one atomic scope; a uniqueness conflict at any insert fails
the whole scope. -/
def bulkCreateAccounts (l : Ledger) (list : List NewAccount) :
    Except TxError Ledger :=
  if list.any (fun a => a.balance < 0) then .error .negativeInitialBalance
  else insertAll l list

/-- Interest on one balance at rate `rn / rd` (minor units, engine
integer arithmetic). -/
def interestOn (balance : Int) (rn rd : Int) : Int := balance * rn / rd

/-- The per-account step sequence of `applyInterestToAll`: step `k`
updates the account's balance, step `k + 1` inserts its log entry.
`failAt` injects a dependent-step failure at the named step, mirroring
the test's monkey-patched `db.run` that throws on its n-th call. -/
def interestSteps (failAt : Option Nat) (rn rd : Int) :
    List Account → Ledger → Nat → Except TxError Ledger
  | [], s, _ => .ok s
  | a :: rest, s, k =>
    if failAt = some k then .error .dependentStepFailure
    else
      let s1 := { s with
                   accounts := setBalanceRows s.accounts a.id
                     (a.balance + interestOn a.balance rn rd) }
      if failAt = some (k + 1) then .error .dependentStepFailure
      else interestSteps failAt rn rd rest (appendLog s1 a.id a.id (interestOn a.balance rn rd)) (k + 2)

/-- Modelled from the spec: `applyInterestToAll(rate)` atomically updates
every account's balance by its proportional interest and records one log
entry per account; any step failure (including a logging failure) fails
the whole scope. -/
def applyInterestToAll (failAt : Option Nat) (l : Ledger) (rn rd : Int) :
    Except TxError Ledger :=
  interestSteps failAt rn rd l.accounts l 1

/-- `getTransactionLog()`. -/
def getTransactionLog (l : Ledger) : List LogEntry := l.txLog

/-! ### Safe query builder over the users table (spec section 4.2)

The builder exposes one entry point per logical operation; every value
is bound as a parameter of a fixed statement template, never
concatenated into statement text, so the statement structure below is a
constant per operation and only the bound parameter varies. -/

/-- A `users` row. -/
structure User where
  id : Nat
  name : String
  email : String
  deriving Repr, DecidableEq

/-- The fixed catalog of statement templates: one per logical operation,
no generic build-arbitrary-SQL primitive. -/
inductive UserOp where
  | lookupByEmail
  | lookupByName
  | deleteByEmail
  | patternSearch
  deriving Repr, DecidableEq

/-- A prepared statement: a template from the fixed catalog plus the one
bound string parameter.  The parameter is data; it never contributes to
the `op` component, which is the whole statement structure. -/
structure UserStatement where
  op : UserOp
  param : String
  deriving Repr, DecidableEq

/-- Boolean prefix test on character lists. -/
def listPrefix : List Char → List Char → Bool
  | [], _ => true
  | _ :: _, [] => false
  | c :: cs, d :: ds => if c = d then listPrefix cs ds else false

/-- Boolean infix test on character lists. -/
def listInfix (needle : List Char) : List Char → Bool
  | [] => listPrefix needle []
  | d :: ds => listPrefix needle (d :: ds) || listInfix needle ds

/-- Literal substring test, used for pattern search after wildcard
metacharacters in the search value have been escaped: the value matches
only where it occurs verbatim. -/
def containsLiteral (hay needle : String) : Bool :=
  listInfix needle.toList hay.toList

/-- Whether a bound statement's predicate holds of a row.  The bound
parameter is compared with the stored column value character for
character; quotes, semicolons, backslashes and wildcards in it have no
structural meaning. -/
def rowMatches (st : UserStatement) (u : User) : Bool :=
  match st.op with
  | .lookupByEmail => u.email = st.param
  | .lookupByName => u.name = st.param
  | .deleteByEmail => u.email = st.param
  | .patternSearch => containsLiteral u.email st.param

/-- First row matched by a select statement. -/
def execSelect : List User → UserStatement → Option User
  | [], _ => none
  | u :: rest, st => if rowMatches st u then some u else execSelect rest st

/-- All rows matched by a select statement. -/
def execSelectAll (db : List User) (st : UserStatement) : List User :=
  db.filter (rowMatches st)

/-- Rows surviving a delete statement. -/
def execDelete (db : List User) (st : UserStatement) : List User :=
  db.filter (fun u => ¬ rowMatches st u)

/-- Modelled from the spec: `findUser(email)` — lookup-by-field with the
untrusted string bound as a parameter. -/
def findUser (db : List User) (email : String) : Option User :=
  execSelect db ⟨.lookupByEmail, email⟩

/-- Modelled from the spec: `findUserByName(name)`. -/
def findUserByName (db : List User) (name : String) : Option User :=
  execSelect db ⟨.lookupByName, name⟩

/-- Modelled from the spec: `deleteUser(email)` — delete-by-field with
the untrusted string bound as a parameter. -/
def deleteUser (db : List User) (email : String) : List User :=
  execDelete db ⟨.deleteByEmail, email⟩

/-- Modelled from the spec: `searchUsers(q)` — substring search with
wildcard metacharacters in the search value escaped to match
literally. -/
def searchUsers (db : List User) (q : String) : List User :=
  execSelectAll db ⟨.patternSearch, q⟩

/-! ### Derived helpers and concrete fixtures used by the theorems -/

/-- Apply a sequence of increments to one counter, each through
`incrementCounter`, the whole run failing at the first out-of-range
intermediate value. -/
def applyIncrements : AnalyticsDb → String → List Int → Except CodecError AnalyticsDb
  | db, _, [] => .ok db
  | db, name, a :: rest =>
    match incrementCounter db name a with
    | .error e => .error e
    | .ok d1 => applyIncrements d1 name rest

/-- The debit of `a` from account `f` would violate the durable
balance ≥ 0 constraint (a missing source row also aborts the scope). -/
def overdraws (l : Ledger) (f : Nat) (a : Int) : Bool :=
  match findAccount l.accounts f with
  | none => true
  | some acc => decide (acc.balance - a < 0)

/-- Ledger with Alice(100) and Bob(50) (ids 1 and 2). -/
def aliceBob : Ledger :=
  (createAccount (createAccount Ledger.empty "Alice" 100).1 "Bob" 50).1

/-- Ledger with three accounts at 1000 / 2000 / 3000. -/
def threeAccounts : Ledger :=
  (createAccount (createAccount
    (createAccount Ledger.empty "Account1" 1000).1 "Account2" 2000).1 "Account3" 3000).1

/-- Ledger with Alice(500) and Bob(500). -/
def logDemo : Ledger :=
  (createAccount (createAccount Ledger.empty "Alice" 500).1 "Bob" 500).1

/-- `logDemo` after a successful `transfer(1, 2, 100)`. -/
def logDemoAfter : Ledger :=
  { accounts := [⟨1, "Alice", 400⟩, ⟨2, "Bob", 600⟩],
    txLog := [⟨1, 2, 100, 0⟩], nextId := 3, uniqueNames := false, clock := 0 }

/-- Ledger with one account SharedAccount(1000). -/
def sharedAccount : Ledger := (createAccount Ledger.empty "SharedAccount" 1000).1

/-- The test's bulk batch whose third entry has a negative balance. -/
def badBatch : List NewAccount :=
  [⟨"User1", 100⟩, ⟨"User2", 200⟩, ⟨"User3", -50⟩, ⟨"User4", 400⟩]

/-- Ledger with the unique index on `name` enforced, already holding
UniqueUser(100) and AnotherUser(200). -/
def uniqueLedger : Ledger :=
  { accounts := [⟨1, "UniqueUser", 100⟩, ⟨2, "AnotherUser", 200⟩],
    txLog := [], nextId := 3, uniqueNames := true, clock := 0 }

/-- The test's second bulk batch, whose middle entry duplicates the
existing UniqueUser name. -/
def dupBatch : List NewAccount :=
  [⟨"NewUser1", 100⟩, ⟨"UniqueUser", 300⟩, ⟨"NewUser2", 200⟩]

/-- Two events one nanosecond apart (Jan 1 2024 in nanoseconds). -/
def nanoEvents : AnalyticsDb :=
  { AnalyticsDb.empty with
      events := [⟨2, "second", 1704067200000000001, none, none⟩,
                 ⟨1, "first", 1704067200000000000, none, none⟩],
      nextEventId := 3 }

/-- Users table with two rows, neither of which stores the injection
string as its literal email. -/
def usersDemo : List User :=
  [⟨1, "Admin", "admin@test.com"⟩, ⟨2, "Regular", "user@test.com"⟩]

/-- Analytics store whose integer columns all exceed `2^53 - 1`. -/
def bigColumns : AnalyticsDb :=
  { events := [⟨1, "user_action", 9007199254740993,
                some 7060885367627898880, some 1234567890123456789⟩],
    counters := [("big", 9007199254740993)],
    snowflakes := [(1, 7060885367627898880)],
    nextEventId := 2, nextSnowflakeId := 2 }

/-- The counter store after the spec scenario: one counter at
`MAX_SAFE_INTEGER + 5`. -/
def counterFinal : AnalyticsDb :=
  { AnalyticsDb.empty with counters := [("c", 9007199254740996)] }

/-! ### Shared lemmas -/

theorem lookupVal_setVal (cs : List (String × Int)) (n : String) (v : Int) :
    lookupVal (setVal cs n v) n = some v := by
  induction cs with
  | nil => simp [setVal, lookupVal]
  | cons p rest ih =>
    obtain ⟨m, w⟩ := p
    by_cases h : m = n
    · simp [setVal, h, lookupVal]
    · simp [setVal, h, lookupVal, ih]

theorem encode_ok_of_inRange {x : Int} (h : int64InRange x) :
    encode x = Except.ok x := by
  simp [encode, h]

/-! ### C2: 64-bit round-trip fidelity -/

/-- C2: for every signed 64-bit integer `x` — including values beyond
`2^53 - 1` and at the `±(2^63 - 1)` boundary — `decode (encode x) = x`,
distinct in-range values never collide under `encode`, and storing `x`
as an event's `timestamp_ns` / `user_id` / `session_id` or as a
snowflake identifier and retrieving it yields exactly `x`. -/
theorem roundtrip_fidelity (db : AnalyticsDb) (ty : String) (x : Int)
    (h : int64InRange x) :
    Except.map decode (encode x) = Except.ok x ∧
    (∀ y, int64InRange y → encode x = encode y → x = y) ∧
    (∃ db1 id1, logEvent db ty x (some x) (some x) = .ok (db1, id1) ∧
      getEvent db1 id1 = some ⟨id1, ty, x, some x, some x⟩) ∧
    (∃ db2 id2, storeSnowflakeId db x = .ok (db2, id2) ∧
      getSnowflakeId db2 id2 = some x) := by
  have he : encode x = Except.ok x := encode_ok_of_inRange h
  refine ⟨by rw [he]; rfl, ?_, ?_, ?_⟩
  · intro y hy hxy
    rw [he, encode_ok_of_inRange hy] at hxy
    exact Except.ok.inj hxy
  · refine ⟨{ db with
        events := ⟨db.nextEventId, ty, x, some x, some x⟩ :: db.events,
        nextEventId := db.nextEventId + 1 }, db.nextEventId, ?_, ?_⟩
    · simp [logEvent, he, encodeOpt, decode, Except.map]
    · simp [getEvent, findEvent]
  · refine ⟨{ db with
        snowflakes := (db.nextSnowflakeId, x) :: db.snowflakes,
        nextSnowflakeId := db.nextSnowflakeId + 1 }, db.nextSnowflakeId, ?_, ?_⟩
    · simp [storeSnowflakeId, he, decode]
    · simp [getSnowflakeId, findSnowRow]

/-- C2 witness: the codec round-trips the extreme value `2^63 - 1`. -/
theorem roundtrip_fidelity_witness :
    int64InRange 9223372036854775807 ∧
    Except.map decode (encode 9223372036854775807) = Except.ok 9223372036854775807 :=
  ⟨by decide,
   (roundtrip_fidelity AnalyticsDb.empty "boundary_test" 9223372036854775807 (by decide)).1⟩

/-! ### C6: counters accumulate exactly -/

theorem encode_ok_val {x y : Int} (h : encode x = Except.ok y) : y = x := by
  unfold encode at h
  by_cases hr : int64InRange x
  · rw [if_pos hr] at h; exact (Except.ok.inj h).symm
  · rw [if_neg hr] at h; cases h

theorem incrementCounter_ok {db d1 : AnalyticsDb} {name : String} {a v : Int}
    (hv : (getCounter db name).getD 0 = v)
    (hinc : incrementCounter db name a = Except.ok d1) :
    getCounter d1 name = some (v + a) := by
  unfold incrementCounter at hinc
  cases henc : encode ((lookupVal db.counters name).getD 0 + a) with
  | error e => rw [henc] at hinc; cases hinc
  | ok w =>
    rw [henc] at hinc
    have hw : w = (lookupVal db.counters name).getD 0 + a := encode_ok_val henc
    have hd1 : d1 = { db with counters := setVal db.counters name (decode w) } :=
      (Except.ok.inj hinc).symm
    rw [hd1]
    show lookupVal (setVal db.counters name (decode w)) name = some (v + a)
    rw [lookupVal_setVal]
    unfold getCounter at hv
    rw [hw, hv]
    rfl

/-- C6: starting from stored value `v` (0 when the counter is absent),
applying increments `a₁ … aₙ` (n ≥ 1) through `incrementCounter`, with
every intermediate value accepted by the 64-bit codec, makes
`getCounter` return exactly `v + Σ aᵢ`. -/
theorem counter_exact_sum (name : String) :
    ∀ (as : List Int), as ≠ [] → ∀ (db : AnalyticsDb) (v : Int) (db' : AnalyticsDb),
      (getCounter db name).getD 0 = v →
      applyIncrements db name as = .ok db' →
      getCounter db' name = some (v + as.sum) := by
  intro as
  induction as with
  | nil => intro h; exact absurd rfl h
  | cons a rest ih =>
    intro _ db v db' hv happ
    unfold applyIncrements at happ
    cases hinc : incrementCounter db name a with
    | error e => rw [hinc] at happ; cases happ
    | ok d1 =>
      rw [hinc] at happ
      have hd1 : getCounter d1 name = some (v + a) := incrementCounter_ok hv hinc
      cases rest with
      | nil =>
        have hdb' : d1 = db' := by
          unfold applyIncrements at happ
          exact Except.ok.inj happ
        rw [← hdb', hd1]
        simp
      | cons b bs =>
        have := ih (by simp) d1 (v + a) db' (by rw [hd1]; rfl) happ
        rw [this]
        simp [add_assoc]

/-- C6 witness: the spec scenario — an increment of
`MAX_SAFE_INTEGER - 5` followed by ten increments of 1 leaves the
counter at exactly `MAX_SAFE_INTEGER + 5`. -/
theorem counter_exact_sum_witness :
    applyIncrements AnalyticsDb.empty "c" (9007199254740986 :: List.replicate 10 1)
      = .ok counterFinal ∧
    getCounter counterFinal "c"
      = some (0 + (9007199254740986 :: List.replicate 10 1).sum) ∧
    getCounter counterFinal "c" = some 9007199254740996 :=
  ⟨by rfl,
   counter_exact_sum "c" _ (List.cons_ne_nil _ _) AnalyticsDb.empty 0 counterFinal rfl (by rfl),
   by rfl⟩

/-! ### C7: nanosecond range precision -/

theorem mem_getEventsByTimeRange {db : AnalyticsDb} {lo hi : Int} {e : EventRecord} :
    e ∈ getEventsByTimeRange db lo hi ↔
      e ∈ db.events ∧ lo ≤ e.timestamp_ns ∧ e.timestamp_ns ≤ hi := by
  simp [getEventsByTimeRange, List.mem_filter]

/-- C7: for two stored events whose timestamps differ by one nanosecond,
the range query bounded to `[t1 + 1, t1 + 1]` returns the later event
and excludes the earlier one. -/
theorem range_precision (db : AnalyticsDb) (t1 : Int) (e1 e2 : EventRecord)
    (h1 : e1 ∈ db.events) (h2 : e2 ∈ db.events)
    (ht1 : e1.timestamp_ns = t1) (ht2 : e2.timestamp_ns = t1 + 1) :
    e2 ∈ getEventsByTimeRange db (t1 + 1) (t1 + 1) ∧
    e1 ∉ getEventsByTimeRange db (t1 + 1) (t1 + 1) := by
  constructor
  · exact mem_getEventsByTimeRange.mpr ⟨h2, by omega, by omega⟩
  · intro hmem
    have := (mem_getEventsByTimeRange.mp hmem).2
    omega

/-- C7 witness: two events one nanosecond apart on Jan 1 2024; the
point query at the second timestamp sees only the second event. -/
theorem range_precision_witness :
    (⟨2, "second", 1704067200000000001, none, none⟩ : EventRecord) ∈
      getEventsByTimeRange nanoEvents 1704067200000000001 1704067200000000001 ∧
    (⟨1, "first", 1704067200000000000, none, none⟩ : EventRecord) ∉
      getEventsByTimeRange nanoEvents 1704067200000000001 1704067200000000001 :=
  range_precision nanoEvents 1704067200000000000
    ⟨1, "first", 1704067200000000000, none, none⟩
    ⟨2, "second", 1704067200000000001, none, none⟩
    (by decide) (by decide) rfl rfl

/-! ### C10: reads deliver exact bigints, never doubles -/

/-- C10: every integer delivered by the public read operations —
`getCounter`, `getSnowflakeId`, the `id` of `findBySnowflakeId`, and
`getEvent`'s `timestamp_ns` / `user_id` / `session_id` — arrives as
`DbValue.bigint` carrying exactly the stored integer, never as the
engine's floating-point-backed `number` decoding. -/
theorem reads_return_bigint (db : AnalyticsDb) (name : String) (id rowid : Nat) (x : Int) :
    (∀ v, getCounter db name = some v → getCounterValue db name = some (.bigint v)) ∧
    (∀ v, getSnowflakeId db rowid = some v → getSnowflakeValue db rowid = some (.bigint v)) ∧
    (∀ r, findBySnowflakeId db x = some r →
      findBySnowflakeIdValue db x = some (.bigint (Int.ofNat r.1))) ∧
    (∀ e, getEvent db id = some e →
      getEventValues db id = some (.bigint e.timestamp_ns,
        e.user_id.map .bigint, e.session_id.map .bigint)) := by
  refine ⟨?_, ?_, ?_, ?_⟩
  · intro v h; simp [getCounterValue, h, decodeColumn, analyticsSafeIntegers]
  · intro v h; simp [getSnowflakeValue, h, decodeColumn, analyticsSafeIntegers]
  · intro r h; simp [findBySnowflakeIdValue, h, decodeColumn, analyticsSafeIntegers]
  · intro e h
    simp only [getEventValues, h, Option.map_some, decodeColumn, analyticsSafeIntegers,
      if_pos]
    rfl

/-- C10 witness: on a store whose every integer column exceeds
`2^53 - 1`, the reads deliver the exact values as bigints. -/
theorem reads_return_bigint_witness :
    getCounterValue bigColumns "big" = some (.bigint 9007199254740993) ∧
    getSnowflakeValue bigColumns 1 = some (.bigint 7060885367627898880) ∧
    findBySnowflakeIdValue bigColumns 7060885367627898880 = some (.bigint (Int.ofNat 1)) ∧
    getEventValues bigColumns 1 = some (.bigint 9007199254740993,
      some (.bigint 7060885367627898880), some (.bigint 1234567890123456789)) :=
  ⟨(reads_return_bigint bigColumns "big" 1 1 7060885367627898880).1 _ (by rfl),
   (reads_return_bigint bigColumns "big" 1 1 7060885367627898880).2.1 _ (by rfl),
   (reads_return_bigint bigColumns "big" 1 1 7060885367627898880).2.2.1 _ (by rfl),
   (reads_return_bigint bigColumns "big" 1 1 7060885367627898880).2.2.2 _ (by rfl)⟩

/-! ### C1: failed transfers are atomic -/

/-- C1: a `transfer(from, to, amount)` whose amount is non-positive,
whose destination does not exist, or whose debit would violate the
durable balance ≥ 0 constraint surfaces an error, and after the scope
rolls back the balances of both accounts equal their pre-call values. -/
theorem transfer_atomicity (l : Ledger) (f t : Nat) (a : Int)
    (hfail : a ≤ 0 ∨ accountExists l t = false ∨ (f ≠ t ∧ overdraws l f a = true)) :
    (∃ e, transfer l f t a = Except.error e) ∧
    getBalance (runTx (fun s => transfer s f t a) l).fst f = getBalance l f ∧
    getBalance (runTx (fun s => transfer s f t a) l).fst t = getBalance l t := by
  have herr : ∃ e, transfer l f t a = Except.error e := by
    by_cases h0 : a ≤ 0
    · exact ⟨.nonPositiveAmount, by unfold transfer; rw [if_pos h0]⟩
    · rcases hfail with h | hex | ⟨hft, hod⟩
      · exact absurd h h0
      · refine ⟨.missingDestination, ?_⟩
        unfold transfer
        rw [if_neg h0, if_pos (by simp [hex])]
      · by_cases hex : accountExists l t = true
        · unfold overdraws at hod
          cases hf : findAccount l.accounts f with
          | none =>
            refine ⟨.missingSource, ?_⟩
            have hd : debit l f a = Except.error .missingSource := by
              simp [debit, hf]
            unfold transfer
            rw [if_neg h0, if_neg (by simp [hex]), if_neg hft, hd]
          | some acc =>
            rw [hf] at hod
            have hb : acc.balance - a < 0 := by simpa using hod
            refine ⟨.insufficientFunds, ?_⟩
            have hd : debit l f a = Except.error .insufficientFunds := by
              simp [debit, hf, hb]
            unfold transfer
            rw [if_neg h0, if_neg (by simp [hex]), if_neg hft, hd]
        · refine ⟨.missingDestination, ?_⟩
          unfold transfer
          rw [if_neg h0, if_pos (by simpa using hex)]
  obtain ⟨e, he⟩ := herr
  exact ⟨⟨e, he⟩, by simp [runTx, he], by simp [runTx, he]⟩

/-- C1 witness: Alice(100), Bob(50); `transfer(1, 2, 150)` fails and
both balances are unchanged. -/
theorem transfer_atomicity_witness :
    (∃ e, transfer aliceBob 1 2 150 = Except.error e) ∧
    getBalance (runTx (fun s => transfer s 1 2 150) aliceBob).fst 1 = getBalance aliceBob 1 ∧
    getBalance (runTx (fun s => transfer s 1 2 150) aliceBob).fst 2 = getBalance aliceBob 2 :=
  transfer_atomicity aliceBob 1 2 150 (Or.inr (Or.inr ⟨by decide, by decide⟩))

/-! ### C4: bulk creation is all-or-nothing -/

theorem insertAccount_ok {s s1 : Ledger} {a : NewAccount}
    (h : insertAccount s a = Except.ok s1) :
    s1.uniqueNames = s.uniqueNames ∧
    s1.accounts = s.accounts ++ [⟨s.nextId, a.name, a.balance⟩] := by
  unfold insertAccount at h
  by_cases hc : (s.uniqueNames = true ∧ s.accounts.any (fun b => b.name = a.name) = true)
  · rw [if_pos hc] at h; cases h
  · rw [if_neg hc] at h
    rw [← Except.ok.inj h]
    exact ⟨rfl, rfl⟩

theorem insertAll_fails :
    ∀ (list : List NewAccount) (s : Ledger), s.uniqueNames = true →
      (∃ a ∈ list, ∃ b ∈ s.accounts, b.name = a.name) →
      ∃ e, insertAll s list = Except.error e := by
  intro list
  induction list with
  | nil =>
    rintro s _ ⟨a, ha, _⟩
    exact absurd ha (List.not_mem_nil a)
  | cons a rest ih =>
    rintro s hu ⟨x, hx, b, hb, hname⟩
    cases hins : insertAccount s a with
    | error e => exact ⟨e, by unfold insertAll; rw [hins]⟩
    | ok s1 =>
      rcases List.mem_cons.mp hx with rfl | hxr
      · exfalso
        unfold insertAccount at hins
        rw [if_pos ⟨hu, List.any_eq_true.mpr ⟨b, hb, by simp [hname]⟩⟩] at hins
        cases hins
      · obtain ⟨huniq, hacc⟩ := insertAccount_ok hins
        obtain ⟨e, he⟩ := ih s1 (by rw [huniq, hu])
          ⟨x, hxr, b, by rw [hacc]; exact List.mem_append_left _ hb, hname⟩
        exact ⟨e, by unfold insertAll; rw [hins]; exact he⟩

/-- C4: a `bulkCreateAccounts(list)` containing an entry with a negative
initial balance fails; with the unique index enforced, a batch
containing an entry whose name duplicates an existing account's name
fails; and any failing bulk creation leaves the account count exactly as
it was before the call — no entry of the batch persists. -/
theorem bulk_all_or_nothing (l : Ledger) (list : List NewAccount) :
    ((∃ a ∈ list, a.balance < 0) → ∃ e, bulkCreateAccounts l list = Except.error e) ∧
    (l.uniqueNames = true → (∃ a ∈ list, ∃ b ∈ l.accounts, b.name = a.name) →
      ∃ e, bulkCreateAccounts l list = Except.error e) ∧
    (∀ e, bulkCreateAccounts l list = Except.error e →
      accountCount (runTx (fun s => bulkCreateAccounts s list) l).fst = accountCount l) := by
  refine ⟨?_, ?_, ?_⟩
  · rintro ⟨a, ha, hneg⟩
    refine ⟨.negativeInitialBalance, ?_⟩
    unfold bulkCreateAccounts
    rw [if_pos (by simp only [List.any_eq_true, decide_eq_true_eq]; exact ⟨a, ha, hneg⟩)]
  · intro hu hdup
    by_cases hneg : list.any (fun a => a.balance < 0) = true
    · exact ⟨.negativeInitialBalance, by unfold bulkCreateAccounts; rw [if_pos hneg]⟩
    · obtain ⟨e, he⟩ := insertAll_fails list l hu hdup
      exact ⟨e, by unfold bulkCreateAccounts; rw [if_neg hneg, he]⟩
  · intro e he
    simp [runTx, he]

/-- C4 witness: the four-entry batch whose third entry has balance −50
fails and leaves the empty ledger with zero accounts; and under the
unique index, the batch duplicating UniqueUser fails with the
uniqueness violation and leaves the two existing accounts as the only
rows — NewUser1, inserted before the conflict, does not persist. -/
theorem bulk_all_or_nothing_witness :
    (∃ e, bulkCreateAccounts Ledger.empty badBatch = Except.error e) ∧
    accountCount (runTx (fun s => bulkCreateAccounts s badBatch) Ledger.empty).fst
      = accountCount Ledger.empty ∧
    (∃ e, bulkCreateAccounts uniqueLedger dupBatch = Except.error e) ∧
    bulkCreateAccounts uniqueLedger dupBatch = Except.error .uniquenessViolation ∧
    accountCount (runTx (fun s => bulkCreateAccounts s dupBatch) uniqueLedger).fst
      = accountCount uniqueLedger :=
  ⟨(bulk_all_or_nothing Ledger.empty badBatch).1 ⟨⟨"User3", -50⟩, by decide, by decide⟩,
   (bulk_all_or_nothing Ledger.empty badBatch).2.2 .negativeInitialBalance (by rfl),
   (bulk_all_or_nothing uniqueLedger dupBatch).2.1 rfl
     ⟨⟨"UniqueUser", 300⟩, by decide, ⟨1, "UniqueUser", 100⟩, by decide, rfl⟩,
   by rfl,
   (bulk_all_or_nothing uniqueLedger dupBatch).2.2 .uniquenessViolation (by rfl)⟩

/-! ### C5: interest application is atomic under injected failures -/

/-- C5: when any step of `applyInterestToAll` fails — in particular a
log-insertion step partway through the batch — the whole scope rolls
back and every account's balance after the call equals its balance
before the call. -/
theorem interest_atomicity (failAt : Option Nat) (l : Ledger) (rn rd : Int)
    (e : TxError) (h : applyInterestToAll failAt l rn rd = Except.error e) :
    ∀ id, getBalance (runTx (fun s => applyInterestToAll failAt s rn rd) l).fst id
      = getBalance l id := by
  intro id
  simp [runTx, h]

/-- C5 witness: three accounts at 1000/2000/3000; the injected failure
of the fourth step (the second account's log insert) aborts the batch
and account 1 still reads 1000 even though its update "succeeded"
earlier in the batch. -/
theorem interest_atomicity_witness :
    applyInterestToAll (some 4) threeAccounts 1 10 = Except.error .dependentStepFailure ∧
    getBalance (runTx (fun s => applyInterestToAll (some 4) s 1 10) threeAccounts).fst 1
      = getBalance threeAccounts 1 ∧
    getBalance threeAccounts 1 = some 1000 :=
  ⟨by rfl,
   interest_atomicity (some 4) threeAccounts 1 10 .dependentStepFailure (by rfl) 1,
   by rfl⟩

/-! ### C8: the transaction log records exactly the committed transfers -/

theorem debit_fields {l l' : Ledger} {id : Nat} {a : Int}
    (h : debit l id a = Except.ok l') :
    l'.txLog = l.txLog ∧ l'.clock = l.clock := by
  cases hf : findAccount l.accounts id with
  | none => simp [debit, hf] at h
  | some acc =>
    simp only [debit, hf] at h
    by_cases hb : acc.balance - a < 0
    · rw [if_pos hb] at h; cases h
    · rw [if_neg hb] at h
      rw [← Except.ok.inj h]
      exact ⟨rfl, rfl⟩

theorem credit_fields (l : Ledger) (id : Nat) (a : Int) :
    (credit l id a).txLog = l.txLog ∧ (credit l id a).clock = l.clock := by
  unfold credit
  cases findAccount l.accounts id <;> exact ⟨rfl, rfl⟩

/-- C8: a failed transfer leaves the transaction log untouched; a
committed transfer between distinct accounts appends exactly one entry
recording source, destination, amount and timestamp; a committed
self-transfer no-op appends nothing.  Applied at every intermediate
state, this says the log always lists exactly the committed
balance-changing transfers. -/
theorem log_matches_transfers (l : Ledger) (f t : Nat) (a : Int) :
    (∀ e, transfer l f t a = Except.error e →
      getTransactionLog (runTx (fun s => transfer s f t a) l).fst = getTransactionLog l) ∧
    (∀ l', transfer l f t a = Except.ok l' → f ≠ t →
      getTransactionLog l' = getTransactionLog l ++ [⟨f, t, a, l.clock⟩]) ∧
    (∀ l', transfer l f t a = Except.ok l' → f = t →
      getTransactionLog l' = getTransactionLog l) := by
  refine ⟨?_, ?_, ?_⟩
  · intro e he
    simp [runTx, he]
  · intro l' hok hft
    unfold transfer at hok
    by_cases h0 : a ≤ 0
    · rw [if_pos h0] at hok; cases hok
    rw [if_neg h0] at hok
    by_cases hex : accountExists l t = true
    · rw [if_neg (by simp [hex]), if_neg hft] at hok
      cases hd : debit l f a with
      | error e => rw [hd] at hok; cases hok
      | ok l1 =>
        rw [hd] at hok
        obtain ⟨hlog1, hclock1⟩ := debit_fields hd
        obtain ⟨hlog2, hclock2⟩ := credit_fields l1 t a
        rw [← Except.ok.inj hok]
        show (credit l1 t a).txLog ++ [⟨f, t, a, (credit l1 t a).clock⟩]
          = getTransactionLog l ++ [⟨f, t, a, l.clock⟩]
        rw [hlog2, hclock2, hlog1, hclock1]
        rfl
    · rw [if_pos hex] at hok; cases hok
  · intro l' hok hft
    unfold transfer at hok
    by_cases h0 : a ≤ 0
    · rw [if_pos h0] at hok; cases hok
    rw [if_neg h0] at hok
    by_cases hex : accountExists l t = true
    · rw [if_neg (by simp [hex]), if_pos hft] at hok
      rw [← Except.ok.inj hok]
    · rw [if_pos hex] at hok; cases hok

/-- C8 witness: from Alice(500)/Bob(500), the committed
`transfer(1, 2, 100)` appends exactly its entry, and the subsequent
failing `transfer(1, 2, 1000)` appends nothing. -/
theorem log_matches_transfers_witness :
    transfer logDemo 1 2 100 = Except.ok logDemoAfter ∧
    getTransactionLog logDemoAfter = getTransactionLog logDemo ++ [⟨1, 2, 100, 0⟩] ∧
    transfer logDemoAfter 1 2 1000 = Except.error .insufficientFunds ∧
    getTransactionLog (runTx (fun s => transfer s 1 2 1000) logDemoAfter).fst
      = getTransactionLog logDemoAfter :=
  ⟨by rfl,
   (log_matches_transfers logDemo 1 2 100).2.1 logDemoAfter (by rfl) (by decide),
   by rfl,
   (log_matches_transfers logDemoAfter 1 2 1000).1 .insufficientFunds (by rfl)⟩

/-! ### C9: self-transfer is a validated no-op -/

/-- C9: `transfer(a, a, m)` still validates — it fails on a non-positive
amount and on a missing account, in both cases rolling back to the exact
pre-call state — and when valid it commits as a no-op returning the
ledger unchanged: no balance change and no log entry. -/
theorem self_transfer (l : Ledger) (a : Nat) (m : Int) :
    (m ≤ 0 → transfer l a a m = Except.error .nonPositiveAmount ∧
      (runTx (fun s => transfer s a a m) l).fst = l) ∧
    (0 < m → accountExists l a = false →
      transfer l a a m = Except.error .missingDestination ∧
      (runTx (fun s => transfer s a a m) l).fst = l) ∧
    (0 < m → accountExists l a = true → transfer l a a m = Except.ok l) := by
  refine ⟨?_, ?_, ?_⟩
  · intro hm
    have he : transfer l a a m = Except.error .nonPositiveAmount := by
      unfold transfer; rw [if_pos hm]
    exact ⟨he, by simp [runTx, he]⟩
  · intro hm hex
    have he : transfer l a a m = Except.error .missingDestination := by
      unfold transfer
      rw [if_neg (by omega), if_pos (by simp [hex])]
    exact ⟨he, by simp [runTx, he]⟩
  · intro hm hex
    unfold transfer
    rw [if_neg (by omega), if_neg (by simp [hex]), if_pos rfl]

/-- C9 witness: on SharedAccount(1000), `transfer(1, 1, 0)` fails with
the validation error and restores the state; `transfer(1, 1, 5)`
commits as a no-op. -/
theorem self_transfer_witness :
    (transfer sharedAccount 1 1 0 = Except.error .nonPositiveAmount ∧
      (runTx (fun s => transfer s 1 1 0) sharedAccount).fst = sharedAccount) ∧
    transfer sharedAccount 1 1 5 = Except.ok sharedAccount :=
  ⟨(self_transfer sharedAccount 1 0).1 (by decide),
   (self_transfer sharedAccount 1 5).2.2 (by decide) (by rfl)⟩

/-! ### C3: parameter binding is injection-immune -/

theorem execSelect_some {db : List User} {st : UserStatement} {u : User}
    (h : execSelect db st = some u) : u ∈ db ∧ rowMatches st u = true := by
  induction db with
  | nil => cases h
  | cons v rest ih =>
    unfold execSelect at h
    by_cases hm : rowMatches st v = true
    · rw [if_pos hm] at h
      rw [← Option.some.inj h]
      exact ⟨List.mem_cons_self v rest, hm⟩
    · rw [if_neg hm] at h
      obtain ⟨h1, h2⟩ := ih h
      exact ⟨List.mem_cons_of_mem v h1, h2⟩

theorem execSelect_none {db : List User} {st : UserStatement}
    (h : ∀ u ∈ db, rowMatches st u = false) : execSelect db st = none := by
  induction db with
  | nil => rfl
  | cons v rest ih =>
    unfold execSelect
    rw [if_neg (by simp [h v (List.mem_cons_self v rest)])]
    exact ih (fun u hu => h u (List.mem_cons_of_mem v hu))

/-- C3: untrusted strings bound to the fixed query templates act only as
literal data — `findUser` returns a row only when its stored email
equals the parameter character for character (so the classic injection
payload matches nothing unless stored verbatim), `findUserByName`
likewise on names, `deleteUser` removes exactly the rows whose email
equals the parameter, and `searchUsers` matches only rows containing
the search value verbatim. -/
theorem injection_immunity (db : List User) (s : String) :
    (∀ u, findUser db s = some u → u.email = s) ∧
    (∀ u, findUserByName db s = some u → u.name = s) ∧
    ((∀ u ∈ db, u.email ≠ s) → findUser db s = none) ∧
    (∀ u, u ∈ deleteUser db s ↔ u ∈ db ∧ u.email ≠ s) ∧
    (∀ u, u ∈ searchUsers db s → u ∈ db ∧ containsLiteral u.email s = true) := by
  refine ⟨?_, ?_, ?_, ?_, ?_⟩
  · intro u h
    have := (execSelect_some h).2
    simpa [rowMatches] using this
  · intro u h
    have := (execSelect_some h).2
    simpa [rowMatches] using this
  · intro hall
    exact execSelect_none (fun u hu => by simpa [rowMatches] using hall u hu)
  · intro u
    simp [deleteUser, execDelete, List.mem_filter, rowMatches]
  · intro u hu
    have := List.mem_filter.mp hu
    exact ⟨this.1, by simpa [rowMatches] using this.2⟩

/-- C3 witness: on a two-row table, the injection payload
`' OR '1'='1` matches no row as a `findUser` parameter, and as a
`deleteUser` parameter it deletes nothing — all rows survive. -/
theorem injection_immunity_witness :
    findUser usersDemo "' OR '1'='1" = none ∧
    ((⟨1, "Admin", "admin@test.com"⟩ : User) ∈ deleteUser usersDemo "' OR '1'='1" ∧
     (⟨2, "Regular", "user@test.com"⟩ : User) ∈ deleteUser usersDemo "' OR '1'='1") ∧
    searchUsers usersDemo "100%" = [] :=
  ⟨(injection_immunity usersDemo "' OR '1'='1").2.2.1 (by decide),
   ⟨((injection_immunity usersDemo "' OR '1'='1").2.2.2.1 _).mpr ⟨by decide, by decide⟩,
    ((injection_immunity usersDemo "' OR '1'='1").2.2.2.1 _).mpr ⟨by decide, by decide⟩⟩,
   by rfl⟩

end BunBench
